import Mathlib

/-!
# Verification of the Grid2D / vector-math subsystem

Shallow embedding of the `Grid2D` scalar-field subsystem (declared in
`src/Utils/Grid2D.h`; its member-function bodies are not part of the
source tree, so those operations are modelled from the specification),
together with `Vec3t::normalize` (from `Vec3.h`) and `Random::shuffle`
(from `Rand.h`), whose bodies are in the source.

Grid values (C++ `float`) are modelled as exact rationals `ℚ`; the
signed-distance field, whose cells hold Euclidean distances, is modelled
with real-valued cells. `size_t` quantities are modelled as `ℕ`.
-/

namespace AIS

/-- Modelled from the spec: the `Grid2D` data model (`src/Utils/Grid2D.h`,
whose implementation file is missing from the source tree): `width`,
`height` and a row-major sequence `data` of scalar values
(index = x + y*width). -/
structure Grid2D where
  width : Nat
  height : Nat
  data : List ℚ
deriving DecidableEq

namespace Grid2D

/-- Row-major flat index, `x + y*width` (spec §3, `Grid2D::index`). -/
def index (g : Grid2D) (x y : Nat) : Nat := x + y * g.width

/-- The grid invariant of spec §3: positive dimensions and
`data.size() == width*height`. -/
def valid (g : Grid2D) : Prop :=
  0 < g.width ∧ 0 < g.height ∧ g.data.length = g.width * g.height

instance (g : Grid2D) : Decidable g.valid := by
  unfold valid; infer_instance

/-- Modelled from the spec: `Grid2D::getValue`, direct row-major access
`data[x + y*width]` (out-of-range reads are caller responsibility; the
model totalises them with a default of 0). -/
def getValue (g : Grid2D) (x y : Nat) : ℚ := g.data.getD (g.index x y) 0

/-- Modelled from the spec: `Grid2D::setValue`, in-place store represented
by explicit state passing. -/
def setValue (g : Grid2D) (x y : Nat) (value : ℚ) : Grid2D :=
  ⟨g.width, g.height, g.data.set (g.index x y) value⟩

/-- Modelled from the spec: `Grid2D::fill`. -/
def fill (g : Grid2D) (value : ℚ) : Grid2D :=
  ⟨g.width, g.height, g.data.map (fun _ => value)⟩

/-- A width×height grid all of whose cells hold `value` (used for the
concrete test grids of spec §8). -/
def ofConst (w h : Nat) (value : ℚ) : Grid2D :=
  ⟨w, h, List.replicate (w * h) value⟩

/-- Modelled from the spec: the raw-data constructor
`Grid2D(width, height, data)`, which throws `std::runtime_error` iff
`data.size() != width*height` (spec §7); the throw is modelled as
`Except.error`. -/
def mkRaw (w h : Nat) (d : List ℚ) : Except String Grid2D :=
  if d.length = w * h then .ok ⟨w, h, d⟩
  else .error "size mismatch"

end Grid2D

/-- One word of the binary stream written by `Grid2D::save`: a `size_t`
dimension or a `float` cell value (spec §4.5 layout). -/
inductive StreamWord where
  | dim (n : Nat) : StreamWord
  | cell (q : ℚ) : StreamWord
deriving DecidableEq

namespace Grid2D

/-- Modelled from the spec: `Grid2D::save` writes `width`, `height`, then
`width*height` cell values in row-major order (spec §4.5). -/
def save (g : Grid2D) : List StreamWord :=
  .dim g.width :: .dim g.height :: g.data.map .cell

/-- Read `n` cell values from the stream, failing on a malformed stream. -/
def readCells : Nat → List StreamWord → Option (List ℚ × List StreamWord)
  | 0, s => some ([], s)
  | n + 1, .cell q :: s =>
      (readCells n s).map (fun p => (q :: p.1, p.2))
  | _ + 1, _ => none

/-- Modelled from the spec: the stream constructor `Grid2D(std::istream&)`,
which reads `width`, `height`, then `width*height` floats (spec §4.5). -/
def load : List StreamWord → Option (Grid2D × List StreamWord)
  | .dim w :: .dim h :: s =>
      (readCells (w * h) s).map (fun p => (⟨w, h, p.1⟩, p.2))
  | _ => none

end Grid2D

/-- Linear interpolation `a + (b-a)*t` (the `lerp` of spec §4.1). -/
def lerp (a b t : ℚ) : ℚ := a + (b - a) * t

namespace Grid2D

/-- Modelled from the spec: `Grid2D::sample`, bilinear interpolation at
normalized coordinates clamped to `[0,1]²` (spec §4.1): map the
normalized coordinate to the continuous grid-space location
`x*(width-1)`, take the four surrounding cells with indices clamped at
the boundary, and blend with two linear interpolations. -/
def sample (g : Grid2D) (x y : ℚ) : ℚ :=
  let gx := max 0 (min 1 x) * ((g.width : ℚ) - 1)
  let gy := max 0 (min 1 y) * ((g.height : ℚ) - 1)
  let x0 := (⌊gx⌋).toNat
  let y0 := (⌊gy⌋).toNat
  let x1 := min (x0 + 1) (g.width - 1)
  let y1 := min (y0 + 1) (g.height - 1)
  let fx := gx - (x0 : ℚ)
  let fy := gy - (y0 : ℚ)
  lerp (lerp (g.getValue x0 y0) (g.getValue x1 y0) fx)
       (lerp (g.getValue x0 y1) (g.getValue x1 y1) fx) fy

/-- Modelled from the spec: scalar `operator+` — a new grid, same
dimensions, each element transformed independently (spec §4.2). -/
def addScalar (g : Grid2D) (s : ℚ) : Grid2D :=
  ⟨g.width, g.height, g.data.map (fun v => v + s)⟩

/-- Modelled from the spec: scalar `operator-`. -/
def subScalar (g : Grid2D) (s : ℚ) : Grid2D :=
  ⟨g.width, g.height, g.data.map (fun v => v - s)⟩

/-- Modelled from the spec: scalar `operator*`. -/
def mulScalar (g : Grid2D) (s : ℚ) : Grid2D :=
  ⟨g.width, g.height, g.data.map (fun v => v * s)⟩

/-- Modelled from the spec: scalar `operator/`. -/
def divScalar (g : Grid2D) (s : ℚ) : Grid2D :=
  ⟨g.width, g.height, g.data.map (fun v => v / s)⟩

/-- Modelled from the spec: `Grid2D::findMaxSize`, the componentwise
maximum of the two grids' dimensions (spec §4.2). -/
def findMaxSize (g other : Grid2D) : Nat × Nat :=
  (max g.width other.width, max g.height other.height)

/-- Modelled from the spec: resampling a grid up to resolution `W×H` by
bilinear `sample` over normalized coordinates (spec §4.2). -/
def resampleTo (g : Grid2D) (W H : Nat) : Grid2D :=
  ⟨W, H, (List.range (W * H)).map (fun i =>
    g.sample (((i % W : Nat) : ℚ) / ((W : ℚ) - 1))
             (((i / W : Nat) : ℚ) / ((H : ℚ) - 1)))⟩

/-- Modelled from the spec: the grid-grid operator skeleton — identical
dimensions combine element-wise directly; otherwise both operands are
resampled to the componentwise-maximum resolution first (spec §4.2). -/
def combine (f : ℚ → ℚ → ℚ) (a b : Grid2D) : Grid2D :=
  if a.width = b.width ∧ a.height = b.height then
    ⟨a.width, a.height, List.zipWith f a.data b.data⟩
  else
    ⟨(a.findMaxSize b).1, (a.findMaxSize b).2,
      List.zipWith f
        (a.resampleTo (a.findMaxSize b).1 (a.findMaxSize b).2).data
        (b.resampleTo (a.findMaxSize b).1 (a.findMaxSize b).2).data⟩

/-- Modelled from the spec: grid-grid `operator+` (spec §4.2). -/
def addGrid (a b : Grid2D) : Grid2D := combine (fun u v => u + v) a b

/-- Modelled from the spec: grid-grid `operator-`. -/
def subGrid (a b : Grid2D) : Grid2D := combine (fun u v => u - v) a b

/-- Modelled from the spec: grid-grid `operator*`. -/
def mulGrid (a b : Grid2D) : Grid2D := combine (fun u v => u * v) a b

/-- Modelled from the spec: grid-grid `operator/`. -/
def divGrid (a b : Grid2D) : Grid2D := combine (fun u v => u / v) a b

end Grid2D

/-- First element of a list under a linear order, as an `Option`
(the running minimum of a linear scan). -/
def minAux {α : Type} [LinearOrder α] : List α → Option α
  | [] => none
  | a :: t =>
      match minAux t with
      | none => some a
      | some m => some (min a m)

/-- Running maximum of a linear scan, as an `Option`. -/
def maxAux {α : Type} [LinearOrder α] : List α → Option α
  | [] => none
  | a :: t =>
      match maxAux t with
      | none => some a
      | some m => some (max a m)

/-- Index of the first element satisfying `p` (the list's length when
none does): the linear scan of spec §4.4. -/
def firstIdx {α : Type} (p : α → Bool) : List α → Nat
  | [] => 0
  | a :: t => if p a then 0 else firstIdx p t + 1

namespace Grid2D

/-- Modelled from the spec: `Grid2D::normalize(maxVal)` — affine remap
sending the grid minimum to 0 and the grid maximum to `maxVal`; on a
constant grid all values become 0 (spec §4.4). -/
def normalize (g : Grid2D) (maxVal : ℚ) : Grid2D :=
  match minAux g.data, maxAux g.data with
  | some mn, some mx =>
      if mn = mx then ⟨g.width, g.height, g.data.map (fun _ => 0)⟩
      else ⟨g.width, g.height,
        g.data.map (fun v => (v - mn) / (mx - mn) * maxVal)⟩
  | _, _ => g

/-- Modelled from the spec: `Grid2D::maxValue`, the (x,y) coordinate of
the first occurrence of the global maximum in row-major order (spec §4.4). -/
def maxValue (g : Grid2D) : Nat × Nat :=
  let i := firstIdx (fun v => v = (maxAux g.data).getD 0) g.data
  (i % g.width, i / g.width)

/-- Modelled from the spec: `Grid2D::minValue`, the (x,y) coordinate of
the first occurrence of the global minimum in row-major order. -/
def minValue (g : Grid2D) : Nat × Nat :=
  let i := firstIdx (fun v => v = (minAux g.data).getD 0) g.data
  (i % g.width, i / g.width)

end Grid2D

namespace Grid2D

/-- Modelled from the spec: the SDF classification — a cell is "inside"
iff its value is ≥ the threshold (spec §4.3). -/
def insideB (g : Grid2D) (t : ℚ) (x y : Nat) : Bool :=
  decide (t ≤ g.getValue x y)

/-- All cell coordinates of the grid, in row-major order. -/
def allCells (g : Grid2D) : List (Nat × Nat) :=
  (List.range (g.width * g.height)).map (fun i => (i % g.width, i / g.width))

/-- The cells whose classification is opposite to that of `(x,y)`. -/
def oppCells (g : Grid2D) (t : ℚ) (x y : Nat) : List (Nat × Nat) :=
  g.allCells.filter (fun c => insideB g t c.1 c.2 != insideB g t x y)

/-- Squared Euclidean distance between two cell coordinates, in
grid-cell units. -/
def sqDistZ (x y : Nat) (c : Nat × Nat) : ℤ :=
  ((x : ℤ) - c.1) ^ 2 + ((y : ℤ) - c.2) ^ 2

/-- Minimal squared distance from `(x,y)` to a cell of opposite
classification (`none` on a uniformly classified grid). -/
def minSqDist (g : Grid2D) (t : ℚ) (x y : Nat) : Option ℤ :=
  minAux ((g.oppCells t x y).map (sqDistZ x y))

end Grid2D

/-- A grid of real-valued cells: the result type of the signed-distance
transform, whose cells hold Euclidean distances. -/
structure RGrid where
  width : Nat
  height : Nat
  data : List ℝ

/-- Row-major access into an `RGrid`. -/
noncomputable def RGrid.getValue (r : RGrid) (x y : Nat) : ℝ :=
  r.data.getD (x + y * r.width) 0

namespace Grid2D

/-- Modelled from the spec: `Grid2D::toSignedDistance(threshold)` — a
same-size grid in which each cell holds the Euclidean distance (in
grid-cell units) to the nearest cell of the opposite classification,
positive if inside, negative if outside (spec §4.3). The
uniformly-classified case, which the spec marks as unspecified in the
source, is modelled as 0. -/
noncomputable def toSignedDistance (g : Grid2D) (t : ℚ) : RGrid :=
  ⟨g.width, g.height, (List.range (g.width * g.height)).map (fun i =>
    match g.minSqDist t (i % g.width) (i / g.width) with
    | some d =>
        (if g.insideB t (i % g.width) (i / g.width) then 1 else -1)
          * Real.sqrt (d : ℝ)
    | none => 0)⟩

end Grid2D

/-- The `Vec3t<T>` template from `Vec3.h`: three scalar components (modelled over ℝ). -/
structure Vec3t where
  x : ℝ
  y : ℝ
  z : ℝ

namespace Vec3t

/-- Source `Vec3t::sqlength`: `e[0]*e[0]+e[1]*e[1]+e[2]*e[2]`. -/
def sqlength (a : Vec3t) : ℝ := a.x * a.x + a.y * a.y + a.z * a.z

/-- Source `Vec3t::length`: `sqrt(sqlength())`. -/
noncomputable def length (a : Vec3t) : ℝ := Real.sqrt a.sqlength

/-- Source `Vec3t::operator/(T)`: componentwise division by a scalar. -/
noncomputable def divScalar (a : Vec3t) (s : ℝ) : Vec3t :=
  ⟨a.x / s, a.y / s, a.z / s⟩

/-- Source `Vec3t::normalize`: `l = a.length(); (l != 0) ? a/l : {0,0,0}`. -/
noncomputable def normalize (a : Vec3t) : Vec3t :=
  if a.length = 0 then ⟨0, 0, 0⟩ else a.divScalar a.length

end Vec3t

/-- One step of `Random::shuffle`: `std::swap(a[i], a[r])`, as a total
list operation (both indices in range in every reachable call). -/
def swapIdx {α : Type} (a : List α) (i j : Nat) : List α :=
  match a.get? i, a.get? j with
  | some u, some v => (a.set i v).set j u
  | _, _ => a

/-- Source `Random::shuffle` from `Rand.h`: for `i = 0 .. a.size()-1` swap
`a[i]` with `a[r i]`, where `r i` models the draw
`rand<size_t>(0, i+1)` (hence `r i ≤ i`). -/
def shuffle {α : Type} (r : Nat → Nat) (a : List α) : List α :=
  (List.range a.length).foldl (fun acc i => swapIdx acc i (r i)) a

namespace Grid2D

theorem readCells_append (d : List ℚ) (rest : List StreamWord) :
    readCells d.length (d.map .cell ++ rest) = some (d, rest) := by
  induction d with
  | nil => rfl
  | cons a t ih =>
      simp [readCells, ih]

theorem load_save (g : Grid2D) (rest : List StreamWord)
    (h : g.data.length = g.width * g.height) :
    load (g.save ++ rest) = some (g, rest) := by
  have : readCells (g.width * g.height) (g.data.map .cell ++ rest)
      = some (g.data, rest) := by
    rw [← h]; exact readCells_append g.data rest
  simp [save, load, this]

theorem index_lt_length (g : Grid2D) (x y : Nat)
    (hx : x < g.width) (hy : y < g.height)
    (h : g.data.length = g.width * g.height) :
    g.index x y < g.data.length := by
  calc g.index x y = x + y * g.width := rfl
    _ < g.width + y * g.width := by omega
    _ = (y + 1) * g.width := by ring
    _ ≤ g.height * g.width := Nat.mul_le_mul_right _ hy
    _ = g.width * g.height := Nat.mul_comm _ _
    _ = g.data.length := h.symm

theorem getD_eq_get (l : List ℚ) (n : Nat) (hlt : n < l.length) :
    l.getD n 0 = l.get ⟨n, hlt⟩ := by
  simp [List.getD_eq_getElem?_getD, List.getElem?_eq_getElem hlt]

end Grid2D

theorem getD_map_lt (f : ℚ → ℚ) (l : List ℚ) (i : Nat) (h : i < l.length)
    (d : ℚ) : (l.map f).getD i d = f (l.getD i 0) := by
  have h' : i < (l.map f).length := by simpa using h
  rw [List.getD_eq_getElem?_getD, List.getElem?_eq_getElem h',
    List.getElem_map, List.getD_eq_getElem?_getD, List.getElem?_eq_getElem h]
  rfl

theorem getD_replicate (n i : Nat) (c d : ℚ) (h : i < n) :
    (List.replicate n c).getD i d = c := by
  have h' : i < (List.replicate n c).length := by simpa using h
  rw [List.getD_eq_getElem?_getD, List.getElem?_eq_getElem h',
    List.getElem_replicate]
  rfl

theorem minAux_isSome {α : Type} [LinearOrder α] (l : List α) (h : l ≠ []) :
    ∃ m, minAux l = some m := by
  cases l with
  | nil => exact absurd rfl h
  | cons a t =>
      cases hm : minAux t with
      | none => exact ⟨a, by simp [minAux, hm]⟩
      | some m => exact ⟨min a m, by simp [minAux, hm]⟩

theorem maxAux_isSome {α : Type} [LinearOrder α] (l : List α) (h : l ≠ []) :
    ∃ m, maxAux l = some m := by
  cases l with
  | nil => exact absurd rfl h
  | cons a t =>
      cases hm : maxAux t with
      | none => exact ⟨a, by simp [maxAux, hm]⟩
      | some m => exact ⟨max a m, by simp [maxAux, hm]⟩

theorem minAux_eq_none {α : Type} [LinearOrder α] :
    ∀ l : List α, minAux l = none → l = [] := by
  intro l h
  cases l with
  | nil => rfl
  | cons a t =>
      rw [minAux] at h
      cases hm : minAux t with
      | none => rw [hm] at h; cases h
      | some m => rw [hm] at h; cases h

theorem maxAux_eq_none {α : Type} [LinearOrder α] :
    ∀ l : List α, maxAux l = none → l = [] := by
  intro l h
  cases l with
  | nil => rfl
  | cons a t =>
      rw [maxAux] at h
      cases hm : maxAux t with
      | none => rw [hm] at h; cases h
      | some m => rw [hm] at h; cases h

theorem minAux_mem {α : Type} [LinearOrder α] :
    ∀ (l : List α) (m : α), minAux l = some m → m ∈ l := by
  intro l
  induction l with
  | nil => intro m h; cases h
  | cons a t ih =>
      intro m h
      rw [minAux] at h
      cases hm : minAux t with
      | none =>
          rw [hm] at h
          injection h with h
          simp [← h]
      | some m' =>
          rw [hm] at h
          injection h with h
          rcases le_total a m' with hle | hle
          · rw [← h, min_eq_left hle]; simp
          · rw [← h, min_eq_right hle]
            exact List.mem_cons_of_mem _ (ih m' hm)

theorem minAux_le {α : Type} [LinearOrder α] :
    ∀ (l : List α) (m : α), minAux l = some m → ∀ v ∈ l, m ≤ v := by
  intro l
  induction l with
  | nil => intro m h; cases h
  | cons a t ih =>
      intro m h v hv
      rw [minAux] at h
      cases hm : minAux t with
      | none =>
          rw [hm] at h
          injection h with h
          have ht : t = [] := minAux_eq_none t hm
          subst ht
          rcases List.mem_singleton.mp hv with rfl
          exact le_of_eq h.symm
      | some m' =>
          rw [hm] at h
          injection h with h
          rcases List.mem_cons.mp hv with rfl | hv'
          · exact h ▸ min_le_left _ _
          · exact le_trans (h ▸ min_le_right a m') (ih m' hm v hv')

theorem maxAux_mem {α : Type} [LinearOrder α] :
    ∀ (l : List α) (m : α), maxAux l = some m → m ∈ l := by
  intro l
  induction l with
  | nil => intro m h; cases h
  | cons a t ih =>
      intro m h
      rw [maxAux] at h
      cases hm : maxAux t with
      | none =>
          rw [hm] at h
          injection h with h
          simp [← h]
      | some m' =>
          rw [hm] at h
          injection h with h
          rcases le_total a m' with hle | hle
          · rw [← h, max_eq_right hle]
            exact List.mem_cons_of_mem _ (ih m' hm)
          · rw [← h, max_eq_left hle]; simp

theorem le_maxAux {α : Type} [LinearOrder α] :
    ∀ (l : List α) (m : α), maxAux l = some m → ∀ v ∈ l, v ≤ m := by
  intro l
  induction l with
  | nil => intro m h; cases h
  | cons a t ih =>
      intro m h v hv
      rw [maxAux] at h
      cases hm : maxAux t with
      | none =>
          rw [hm] at h
          injection h with h
          have ht : t = [] := maxAux_eq_none t hm
          subst ht
          rcases List.mem_singleton.mp hv with rfl
          exact le_of_eq h
      | some m' =>
          rw [hm] at h
          injection h with h
          rcases List.mem_cons.mp hv with rfl | hv'
          · exact h ▸ le_max_left _ _
          · exact le_trans (ih m' hm v hv') (h ▸ le_max_right a m')

theorem lerp_self (c t : ℚ) : lerp c c t = c := by
  simp [lerp]

theorem lerp_zero (a b : ℚ) : lerp a b 0 = a := by
  simp [lerp]

theorem clamp01_nonneg (x : ℚ) : 0 ≤ max 0 (min 1 x) := le_max_left _ _

theorem clamp01_le_one (x : ℚ) : max 0 (min 1 x) ≤ 1 :=
  max_le (by norm_num) (min_le_left _ _)

theorem floor_toNat_lt (n : Nat) (q : ℚ) (hn : 0 < n)
    (hq : q ≤ (n : ℚ) - 1) : (⌊q⌋).toNat < n := by
  have h1 : ⌊q⌋ ≤ ⌊(n : ℚ) - 1⌋ := Int.floor_le_floor hq
  have h2 : ((n : ℚ) - 1) = ((n - 1 : ℤ) : ℚ) := by push_cast; ring
  rw [h2, Int.floor_intCast] at h1
  omega

theorem ofConst_getValue (w h x y : Nat) (c : ℚ)
    (hidx : x + y * w < w * h) :
    (Grid2D.ofConst w h c).getValue x y = c := by
  unfold Grid2D.ofConst Grid2D.getValue Grid2D.index
  exact getD_replicate _ _ _ _ hidx

theorem ofConst_sample (w h : Nat) (c : ℚ) (hw : 0 < w) (hh : 0 < h)
    (x y : ℚ) : (Grid2D.ofConst w h c).sample x y = c := by
  have hW : (Grid2D.ofConst w h c).width = w := rfl
  have hH : (Grid2D.ofConst w h c).height = h := rfl
  have hgx : max 0 (min 1 x) * ((w : ℚ) - 1) ≤ (w : ℚ) - 1 := by
    have hwq : (1 : ℚ) ≤ (w : ℚ) := by exact_mod_cast hw
    have h1 := clamp01_le_one x
    nlinarith [clamp01_nonneg x]
  have hgy : max 0 (min 1 y) * ((h : ℚ) - 1) ≤ (h : ℚ) - 1 := by
    have hhq : (1 : ℚ) ≤ (h : ℚ) := by exact_mod_cast hh
    have h1 := clamp01_le_one y
    nlinarith [clamp01_nonneg y]
  have hx0 : ((⌊max 0 (min 1 x) * ((w : ℚ) - 1)⌋).toNat) < w :=
    floor_toNat_lt w _ hw hgx
  have hy0 : ((⌊max 0 (min 1 y) * ((h : ℚ) - 1)⌋).toNat) < h :=
    floor_toNat_lt h _ hh hgy
  have hval : ∀ a b : Nat, a < w → b < h →
      (Grid2D.ofConst w h c).getValue a b = c := by
    intro a b ha hb
    apply ofConst_getValue
    calc a + b * w < w + b * w := by omega
      _ = (b + 1) * w := by ring
      _ ≤ h * w := Nat.mul_le_mul_right _ hb
      _ = w * h := Nat.mul_comm _ _
  have hx1 : ∀ m : Nat, min m (w - 1) < w := by
    intro m; have := Nat.min_le_right m (w - 1); omega
  have hy1 : ∀ m : Nat, min m (h - 1) < h := by
    intro m; have := Nat.min_le_right m (h - 1); omega
  simp only [Grid2D.sample, hW, hH]
  rw [hval _ _ hx0 hy0, hval _ _ (hx1 _) hy0, hval _ _ hx0 (hy1 _),
    hval _ _ (hx1 _) (hy1 _), lerp_self, lerp_self]

theorem zipWith_replicate_same {α : Type} (f : α → α → α) (n : Nat)
    (a b : α) :
    List.zipWith f (List.replicate n a) (List.replicate n b)
      = List.replicate n (f a b) := by
  induction n with
  | zero => rfl
  | succ k ih => simp [List.replicate_succ, ih]

theorem ofConst_resampleTo (w h W H : Nat) (c : ℚ) (hw : 0 < w)
    (hh : 0 < h) :
    (Grid2D.ofConst w h c).resampleTo W H = Grid2D.ofConst W H c := by
  unfold Grid2D.resampleTo Grid2D.ofConst
  congr 1
  calc (List.range (W * H)).map (fun i =>
        (Grid2D.ofConst w h c).sample (((i % W : Nat) : ℚ) / ((W : ℚ) - 1))
          (((i / W : Nat) : ℚ) / ((H : ℚ) - 1)))
      = (List.range (W * H)).map (fun _ => c) := by
        apply List.map_congr_left
        intro i _
        exact ofConst_sample w h c hw hh _ _
    _ = List.replicate (W * H) c := by
        rw [List.map_const']
        simp

theorem getValue_map (g : Grid2D) (f : ℚ → ℚ) (x y : Nat)
    (hx : x < g.width) (hy : y < g.height)
    (hlen : g.data.length = g.width * g.height) :
    (Grid2D.mk g.width g.height (g.data.map f)).getValue x y
      = f (g.getValue x y) := by
  unfold Grid2D.getValue Grid2D.index
  exact getD_map_lt f g.data _ (Grid2D.index_lt_length g x y hx hy hlen) 0

theorem combine_dims (f : ℚ → ℚ → ℚ) (a b : Grid2D) :
    (Grid2D.combine f a b).width = max a.width b.width ∧
    (Grid2D.combine f a b).height = max a.height b.height := by
  unfold Grid2D.combine
  by_cases hd : a.width = b.width ∧ a.height = b.height
  · rw [if_pos hd]
    exact ⟨by rw [hd.1, max_self], by rw [hd.2, max_self]⟩
  · rw [if_neg hd]
    exact ⟨rfl, rfl⟩

theorem combine_data_of_ne (f : ℚ → ℚ → ℚ) (a b : Grid2D)
    (hd : ¬(a.width = b.width ∧ a.height = b.height)) :
    (Grid2D.combine f a b).data = List.zipWith f
      (a.resampleTo (max a.width b.width) (max a.height b.height)).data
      (b.resampleTo (max a.width b.width) (max a.height b.height)).data := by
  unfold Grid2D.combine
  rw [if_neg hd]
  rfl

theorem ofConst_add_example :
    (Grid2D.ofConst 2 2 1).addGrid (Grid2D.ofConst 4 4 2)
      = Grid2D.ofConst 4 4 3 := by
  have hne : ¬((Grid2D.ofConst 2 2 1).width = (Grid2D.ofConst 4 4 2).width ∧
      (Grid2D.ofConst 2 2 1).height = (Grid2D.ofConst 4 4 2).height) := by
    decide
  unfold Grid2D.addGrid Grid2D.combine
  rw [if_neg hne]
  have hmax : (Grid2D.ofConst 2 2 1).findMaxSize (Grid2D.ofConst 4 4 2)
      = (4, 4) := rfl
  rw [hmax]
  rw [ofConst_resampleTo 2 2 4 4 1 (by norm_num) (by norm_num),
    ofConst_resampleTo 4 4 4 4 2 (by norm_num) (by norm_num)]
  show Grid2D.mk 4 4 (List.zipWith (fun u v => u + v)
    (List.replicate (4 * 4) 1) (List.replicate (4 * 4) 2))
      = Grid2D.ofConst 4 4 3
  rw [zipWith_replicate_same]
  unfold Grid2D.ofConst
  norm_num

/-- C8: the arithmetic operators are non-mutating — in this embedding each
operator is a pure function returning a fresh grid, leaving the operand
grids untouched; the scalar operators return a grid with the same
dimensions whose every in-range element is the independent transform of
the operand's element, and the grid-grid operators are the pure `combine`
of the two operands. -/
theorem C8_arithmetic_pure (g b : Grid2D) (s : ℚ) (hg : g.valid) :
    ((g.addScalar s).width = g.width ∧ (g.addScalar s).height = g.height ∧
      (g.addScalar s).data = g.data.map (fun v => v + s) ∧
      ∀ x y, x < g.width → y < g.height →
        (g.addScalar s).getValue x y = g.getValue x y + s) ∧
    ((g.subScalar s).width = g.width ∧ (g.subScalar s).height = g.height ∧
      (g.subScalar s).data = g.data.map (fun v => v - s) ∧
      ∀ x y, x < g.width → y < g.height →
        (g.subScalar s).getValue x y = g.getValue x y - s) ∧
    ((g.mulScalar s).width = g.width ∧ (g.mulScalar s).height = g.height ∧
      (g.mulScalar s).data = g.data.map (fun v => v * s) ∧
      ∀ x y, x < g.width → y < g.height →
        (g.mulScalar s).getValue x y = g.getValue x y * s) ∧
    ((g.divScalar s).width = g.width ∧ (g.divScalar s).height = g.height ∧
      (g.divScalar s).data = g.data.map (fun v => v / s) ∧
      ∀ x y, x < g.width → y < g.height →
        (g.divScalar s).getValue x y = g.getValue x y / s) ∧
    (g.addGrid b = Grid2D.combine (fun u v => u + v) g b ∧
     g.subGrid b = Grid2D.combine (fun u v => u - v) g b ∧
     g.mulGrid b = Grid2D.combine (fun u v => u * v) g b ∧
     g.divGrid b = Grid2D.combine (fun u v => u / v) g b) := by
  refine ⟨⟨rfl, rfl, rfl, ?_⟩, ⟨rfl, rfl, rfl, ?_⟩, ⟨rfl, rfl, rfl, ?_⟩,
    ⟨rfl, rfl, rfl, ?_⟩, rfl, rfl, rfl, rfl⟩
  · intro x y hx hy
    exact getValue_map g (fun v => v + s) x y hx hy hg.2.2
  · intro x y hx hy
    exact getValue_map g (fun v => v - s) x y hx hy hg.2.2
  · intro x y hx hy
    exact getValue_map g (fun v => v * s) x y hx hy hg.2.2
  · intro x y hx hy
    exact getValue_map g (fun v => v / s) x y hx hy hg.2.2

/-- Witness for C8: the scalar-add of a concrete 2×1 grid is the
element-wise transform. -/
theorem C8_arithmetic_pure_witness :
    ((Grid2D.mk 2 1 [3, 4]).addScalar 5).data = [8, 9] := by
  have h := C8_arithmetic_pure (Grid2D.mk 2 1 [3, 4]) (Grid2D.mk 2 1 [0, 0])
    5 (by decide)
  rw [h.1.2.2.1]
  norm_num

/-- C3: each grid-grid operator returns a grid whose dimensions are the
componentwise maximum of the operands' dimensions; when the dimensions
differ both operands are first resampled (bilinearly, over normalized
coordinates) to that common resolution and combined element-wise; and
a 2×2 grid of ones plus a 4×4 grid of twos is the 4×4 grid of threes. -/
theorem C3_gridOps_resample (a b : Grid2D) :
    ((a.addGrid b).width = max a.width b.width ∧
     (a.addGrid b).height = max a.height b.height) ∧
    ((a.subGrid b).width = max a.width b.width ∧
     (a.subGrid b).height = max a.height b.height) ∧
    ((a.mulGrid b).width = max a.width b.width ∧
     (a.mulGrid b).height = max a.height b.height) ∧
    ((a.divGrid b).width = max a.width b.width ∧
     (a.divGrid b).height = max a.height b.height) ∧
    (¬(a.width = b.width ∧ a.height = b.height) →
      (a.addGrid b).data = List.zipWith (fun u v => u + v)
        (a.resampleTo (max a.width b.width) (max a.height b.height)).data
        (b.resampleTo (max a.width b.width) (max a.height b.height)).data) ∧
    (¬(a.width = b.width ∧ a.height = b.height) →
      (a.subGrid b).data = List.zipWith (fun u v => u - v)
        (a.resampleTo (max a.width b.width) (max a.height b.height)).data
        (b.resampleTo (max a.width b.width) (max a.height b.height)).data) ∧
    (¬(a.width = b.width ∧ a.height = b.height) →
      (a.mulGrid b).data = List.zipWith (fun u v => u * v)
        (a.resampleTo (max a.width b.width) (max a.height b.height)).data
        (b.resampleTo (max a.width b.width) (max a.height b.height)).data) ∧
    (¬(a.width = b.width ∧ a.height = b.height) →
      (a.divGrid b).data = List.zipWith (fun u v => u / v)
        (a.resampleTo (max a.width b.width) (max a.height b.height)).data
        (b.resampleTo (max a.width b.width) (max a.height b.height)).data) ∧
    ((Grid2D.ofConst 2 2 1).addGrid (Grid2D.ofConst 4 4 2)
      = Grid2D.ofConst 4 4 3) ∧
    (∀ x y, x < 4 → y < 4 →
      ((Grid2D.ofConst 2 2 1).addGrid (Grid2D.ofConst 4 4 2)).getValue x y
        = 3) := by
  refine ⟨combine_dims _ a b, combine_dims _ a b, combine_dims _ a b,
    combine_dims _ a b, combine_data_of_ne _ a b, combine_data_of_ne _ a b,
    combine_data_of_ne _ a b, combine_data_of_ne _ a b,
    ofConst_add_example, ?_⟩
  intro x y hx hy
  rw [ofConst_add_example]
  exact ofConst_getValue 4 4 x y 3 (by omega)

/-- Witness for C3: at the concrete operands 1×1 `[5]` and 2×1 `[1,2]`
the dimensions differ, so the differing-dimensions clause applies. -/
theorem C3_gridOps_resample_witness :
    ((Grid2D.mk 1 1 [5]).addGrid (Grid2D.mk 2 1 [1, 2])).width = 2 ∧
    ((Grid2D.mk 1 1 [5]).addGrid (Grid2D.mk 2 1 [1, 2])).data
      = List.zipWith (fun u v => u + v)
        ((Grid2D.mk 1 1 [5]).resampleTo 2 1).data
        ((Grid2D.mk 2 1 [1, 2]).resampleTo 2 1).data ∧
    ((Grid2D.mk 1 1 [5]).subGrid (Grid2D.mk 2 1 [1, 2])).data
      = List.zipWith (fun u v => u - v)
        ((Grid2D.mk 1 1 [5]).resampleTo 2 1).data
        ((Grid2D.mk 2 1 [1, 2]).resampleTo 2 1).data ∧
    ((Grid2D.mk 1 1 [5]).mulGrid (Grid2D.mk 2 1 [1, 2])).data
      = List.zipWith (fun u v => u * v)
        ((Grid2D.mk 1 1 [5]).resampleTo 2 1).data
        ((Grid2D.mk 2 1 [1, 2]).resampleTo 2 1).data ∧
    ((Grid2D.mk 1 1 [5]).divGrid (Grid2D.mk 2 1 [1, 2])).data
      = List.zipWith (fun u v => u / v)
        ((Grid2D.mk 1 1 [5]).resampleTo 2 1).data
        ((Grid2D.mk 2 1 [1, 2]).resampleTo 2 1).data :=
  ⟨(C3_gridOps_resample (Grid2D.mk 1 1 [5]) (Grid2D.mk 2 1 [1, 2])).1.1,
   (C3_gridOps_resample (Grid2D.mk 1 1 [5])
      (Grid2D.mk 2 1 [1, 2])).2.2.2.2.1 (by decide),
   (C3_gridOps_resample (Grid2D.mk 1 1 [5])
      (Grid2D.mk 2 1 [1, 2])).2.2.2.2.2.1 (by decide),
   (C3_gridOps_resample (Grid2D.mk 1 1 [5])
      (Grid2D.mk 2 1 [1, 2])).2.2.2.2.2.2.1 (by decide),
   (C3_gridOps_resample (Grid2D.mk 1 1 [5])
      (Grid2D.mk 2 1 [1, 2])).2.2.2.2.2.2.2.1 (by decide)⟩

theorem sample_blend (g : Grid2D) (x y : ℚ) (hx0 : 0 ≤ x) (hx1 : x ≤ 1)
    (hy0 : 0 ≤ y) (hy1 : y ≤ 1) :
    g.sample x y =
      lerp
        (lerp (g.getValue (⌊x * ((g.width : ℚ) - 1)⌋).toNat
                          (⌊y * ((g.height : ℚ) - 1)⌋).toNat)
              (g.getValue
                (min ((⌊x * ((g.width : ℚ) - 1)⌋).toNat + 1) (g.width - 1))
                (⌊y * ((g.height : ℚ) - 1)⌋).toNat)
              (x * ((g.width : ℚ) - 1)
                - ((⌊x * ((g.width : ℚ) - 1)⌋).toNat : ℚ)))
        (lerp (g.getValue (⌊x * ((g.width : ℚ) - 1)⌋).toNat
                (min ((⌊y * ((g.height : ℚ) - 1)⌋).toNat + 1) (g.height - 1)))
              (g.getValue
                (min ((⌊x * ((g.width : ℚ) - 1)⌋).toNat + 1) (g.width - 1))
                (min ((⌊y * ((g.height : ℚ) - 1)⌋).toNat + 1) (g.height - 1)))
              (x * ((g.width : ℚ) - 1)
                - ((⌊x * ((g.width : ℚ) - 1)⌋).toNat : ℚ)))
        (y * ((g.height : ℚ) - 1)
          - ((⌊y * ((g.height : ℚ) - 1)⌋).toNat : ℚ)) := by
  have hcx : max 0 (min 1 x) = x := by
    rw [min_eq_right hx1, max_eq_right hx0]
  have hcy : max 0 (min 1 y) = y := by
    rw [min_eq_right hy1, max_eq_right hy0]
  simp only [Grid2D.sample, hcx, hcy]

theorem sample_corner_zero (g : Grid2D) :
    g.sample 0 0 = g.getValue 0 0 := by
  have h := sample_blend g 0 0 le_rfl zero_le_one le_rfl zero_le_one
  simp only [zero_mul, Int.floor_zero, Int.toNat_zero, Nat.cast_zero,
    sub_zero, lerp_zero] at h
  exact h

theorem sample_corner_one (g : Grid2D) (hw : 0 < g.width)
    (hh : 0 < g.height) :
    g.sample 1 1 = g.getValue (g.width - 1) (g.height - 1) := by
  have h := sample_blend g 1 1 zero_le_one le_rfl zero_le_one le_rfl
  have hfw : (⌊(1 : ℚ) * ((g.width : ℚ) - 1)⌋).toNat = g.width - 1 := by
    rw [one_mul]
    have hc : ((g.width : ℚ) - 1) = (((g.width : ℤ) - 1 : ℤ) : ℚ) := by
      push_cast; ring
    rw [hc, Int.floor_intCast]
    omega
  have hfh : (⌊(1 : ℚ) * ((g.height : ℚ) - 1)⌋).toNat = g.height - 1 := by
    rw [one_mul]
    have hc : ((g.height : ℚ) - 1) = (((g.height : ℤ) - 1 : ℤ) : ℚ) := by
      push_cast; ring
    rw [hc, Int.floor_intCast]
    omega
  rw [hfw, hfh] at h
  have hminw : min (g.width - 1 + 1) (g.width - 1) = g.width - 1 := by
    omega
  have hminh : min (g.height - 1 + 1) (g.height - 1) = g.height - 1 := by
    omega
  rw [hminw, hminh] at h
  have hfx : (1 : ℚ) * ((g.width : ℚ) - 1) - ((g.width - 1 : ℕ) : ℚ) = 0 := by
    rw [one_mul, Nat.cast_sub hw]
    push_cast
    ring
  have hfy : (1 : ℚ) * ((g.height : ℚ) - 1) - ((g.height - 1 : ℕ) : ℚ)
      = 0 := by
    rw [one_mul, Nat.cast_sub hh]
    push_cast
    ring
  rw [hfx, hfy, lerp_zero, lerp_zero] at h
  exact h

/-- C5: bilinear sampling is exact at the corners — `sample(0,0)` is
`getValue(0,0)` and `sample(1,1)` is `getValue(w-1,h-1)` — and at any
normalized `(x,y) ∈ [0,1]²` it is the standard bilinear blend
`lerp (lerp v00 v10 fx) (lerp v01 v11 fx) fy` of the four surrounding
cells with indices clamped at the boundary. -/
theorem C5_sample_bilinear (g : Grid2D) (hg : g.valid) :
    g.sample 0 0 = g.getValue 0 0 ∧
    g.sample 1 1 = g.getValue (g.width - 1) (g.height - 1) ∧
    ∀ x y : ℚ, 0 ≤ x → x ≤ 1 → 0 ≤ y → y ≤ 1 →
      g.sample x y =
        lerp
          (lerp (g.getValue (⌊x * ((g.width : ℚ) - 1)⌋).toNat
                            (⌊y * ((g.height : ℚ) - 1)⌋).toNat)
                (g.getValue
                  (min ((⌊x * ((g.width : ℚ) - 1)⌋).toNat + 1) (g.width - 1))
                  (⌊y * ((g.height : ℚ) - 1)⌋).toNat)
                (x * ((g.width : ℚ) - 1)
                  - ((⌊x * ((g.width : ℚ) - 1)⌋).toNat : ℚ)))
          (lerp (g.getValue (⌊x * ((g.width : ℚ) - 1)⌋).toNat
                  (min ((⌊y * ((g.height : ℚ) - 1)⌋).toNat + 1)
                    (g.height - 1)))
                (g.getValue
                  (min ((⌊x * ((g.width : ℚ) - 1)⌋).toNat + 1) (g.width - 1))
                  (min ((⌊y * ((g.height : ℚ) - 1)⌋).toNat + 1)
                    (g.height - 1)))
                (x * ((g.width : ℚ) - 1)
                  - ((⌊x * ((g.width : ℚ) - 1)⌋).toNat : ℚ)))
          (y * ((g.height : ℚ) - 1)
            - ((⌊y * ((g.height : ℚ) - 1)⌋).toNat : ℚ)) :=
  ⟨sample_corner_zero g, sample_corner_one g hg.1 hg.2.1,
   fun x y hx0 hx1 hy0 hy1 => sample_blend g x y hx0 hx1 hy0 hy1⟩

/-- Witness for C5: corner exactness at the concrete 2×2 grid
`[1,2,3,4]`. -/
theorem C5_sample_bilinear_witness :
    (Grid2D.mk 2 2 [1, 2, 3, 4]).sample 0 0
        = (Grid2D.mk 2 2 [1, 2, 3, 4]).getValue 0 0 ∧
    (Grid2D.mk 2 2 [1, 2, 3, 4]).sample 1 1
        = (Grid2D.mk 2 2 [1, 2, 3, 4]).getValue 1 1 :=
  ⟨(C5_sample_bilinear (Grid2D.mk 2 2 [1, 2, 3, 4]) (by decide)).1,
   (C5_sample_bilinear (Grid2D.mk 2 2 [1, 2, 3, 4]) (by decide)).2.1⟩

theorem normalize_example :
    (Grid2D.mk 1 4 [1, 2, 3, 4]).normalize 1
      = Grid2D.mk 1 4 [0, 1/3, 2/3, 1] := by
  have hmin4 : minAux ([1, 2, 3, 4] : List ℚ) = some 1 := by
    norm_num [minAux, min_def]
  have hmax4 : maxAux ([1, 2, 3, 4] : List ℚ) = some 4 := by
    norm_num [maxAux, max_def]
  unfold Grid2D.normalize
  simp only [show (Grid2D.mk 1 4 [1, 2, 3, 4]).data = [1, 2, 3, 4] from rfl,
    hmin4, hmax4]
  rw [if_neg (by norm_num)]
  simp only [List.map]
  norm_num

/-- C6: `normalize(maxVal)` remaps affinely so the grid minimum goes to 0
and the grid maximum to `maxVal`; a constant grid maps to all zeros; and
`normalize()` on the 1×4 grid `[1,2,3,4]` yields `[0,1/3,2/3,1]`. -/
theorem C6_normalize_affine (g : Grid2D) (maxVal : ℚ) (hg : g.valid) :
    ∃ mn mx, minAux g.data = some mn ∧ maxAux g.data = some mx ∧
      mn ∈ g.data ∧ (∀ v ∈ g.data, mn ≤ v) ∧
      mx ∈ g.data ∧ (∀ v ∈ g.data, v ≤ mx) ∧
      (g.normalize maxVal).width = g.width ∧
      (g.normalize maxVal).height = g.height ∧
      (mn ≠ mx →
        (g.normalize maxVal).data
          = g.data.map (fun v => (v - mn) / (mx - mn) * maxVal) ∧
        (mn - mn) / (mx - mn) * maxVal = 0 ∧
        (mx - mn) / (mx - mn) * maxVal = maxVal) ∧
      (mn = mx → (g.normalize maxVal).data = g.data.map (fun _ => 0)) ∧
      (Grid2D.mk 1 4 [1, 2, 3, 4]).normalize 1
        = Grid2D.mk 1 4 [0, 1/3, 2/3, 1] := by
  have hlen0 : 0 < g.data.length := by
    rw [hg.2.2]; exact Nat.mul_pos hg.1 hg.2.1
  have hne : g.data ≠ [] := List.ne_nil_of_length_pos hlen0
  obtain ⟨mn, hmn⟩ := minAux_isSome g.data hne
  obtain ⟨mx, hmx⟩ := maxAux_isSome g.data hne
  refine ⟨mn, mx, hmn, hmx, minAux_mem _ _ hmn, minAux_le _ _ hmn,
    maxAux_mem _ _ hmx, le_maxAux _ _ hmx, ?_, ?_, ?_, ?_,
    normalize_example⟩
  · unfold Grid2D.normalize
    rw [hmn, hmx]
    dsimp only
    by_cases hc : mn = mx
    · rw [if_pos hc]
    · rw [if_neg hc]
  · unfold Grid2D.normalize
    rw [hmn, hmx]
    dsimp only
    by_cases hc : mn = mx
    · rw [if_pos hc]
    · rw [if_neg hc]
  · intro hc
    unfold Grid2D.normalize
    rw [hmn, hmx]
    dsimp only
    rw [if_neg hc]
    refine ⟨rfl, ?_, ?_⟩
    · rw [sub_self, zero_div, zero_mul]
    · have hd : mx - mn ≠ 0 := sub_ne_zero.mpr (Ne.symm hc)
      rw [div_self hd, one_mul]
  · intro hc
    unfold Grid2D.normalize
    rw [hmn, hmx]
    dsimp only
    rw [if_pos hc]

/-- Witness for C6: the concrete `[1,2,3,4]` normalization, through the
theorem at a valid grid. -/
theorem C6_normalize_affine_witness :
    (Grid2D.mk 1 4 [1, 2, 3, 4]).normalize 1
      = Grid2D.mk 1 4 [0, 1/3, 2/3, 1] := by
  obtain ⟨mn, mx, h⟩ :=
    C6_normalize_affine (Grid2D.mk 1 4 [1, 2, 3, 4]) 1 (by decide)
  exact h.2.2.2.2.2.2.2.2.2.2

theorem firstIdx_le_length {α : Type} (p : α → Bool) :
    ∀ l : List α, firstIdx p l ≤ l.length := by
  intro l
  induction l with
  | nil => simp [firstIdx]
  | cons a t ih =>
      simp only [firstIdx]
      by_cases hp : p a = true
      · rw [if_pos hp]; simp
      · rw [if_neg hp]
        simpa using Nat.succ_le_succ ih

theorem firstIdx_lt_length {α : Type} (p : α → Bool) :
    ∀ l : List α, (∃ v ∈ l, p v = true) → firstIdx p l < l.length := by
  intro l
  induction l with
  | nil => rintro ⟨v, hv, _⟩; cases hv
  | cons a t ih =>
      rintro ⟨v, hv, hpv⟩
      simp only [firstIdx]
      by_cases hp : p a = true
      · rw [if_pos hp]; simp
      · rw [if_neg hp]
        have hvt : v ∈ t := by
          rcases List.mem_cons.mp hv with rfl | hm
          · exact absurd hpv hp
          · exact hm
        simpa using Nat.succ_lt_succ (ih ⟨v, hvt, hpv⟩)

theorem getD_firstIdx {α : Type} (p : α → Bool) :
    ∀ (l : List α) (d : α), firstIdx p l < l.length →
      p (l.getD (firstIdx p l) d) = true := by
  intro l
  induction l with
  | nil => intro d h; simp [firstIdx] at h
  | cons a t ih =>
      intro d h
      by_cases hp : p a = true
      · have h0 : firstIdx p (a :: t) = 0 := by simp [firstIdx, hp]
        rw [h0]
        simpa using hp
      · have h1 : firstIdx p (a :: t) = firstIdx p t + 1 := by
          simp [firstIdx, hp]
        rw [h1, List.getD_cons_succ]
        apply ih
        rw [h1] at h
        simpa using h

theorem getD_lt_firstIdx {α : Type} (p : α → Bool) :
    ∀ (l : List α) (j : Nat) (d : α), j < firstIdx p l → j < l.length →
      p (l.getD j d) = false := by
  intro l
  induction l with
  | nil => intro j d hj hl; simp at hl
  | cons a t ih =>
      intro j d hj hl
      by_cases hp : p a = true
      · have h0 : firstIdx p (a :: t) = 0 := by simp [firstIdx, hp]
        rw [h0] at hj
        omega
      · have h1 : firstIdx p (a :: t) = firstIdx p t + 1 := by
          simp [firstIdx, hp]
        rw [h1] at hj
        cases j with
        | zero =>
            rw [List.getD_cons_zero]
            simpa using hp
        | succ k =>
            rw [List.getD_cons_succ]
            exact ih k d (by omega) (by simpa using hl)

theorem rowmajor_lt (x y a b w : Nat) (hx : x < w)
    (h : y < b ∨ (y = b ∧ x < a)) : x + y * w < a + b * w := by
  rcases h with hyb | ⟨rfl, hxa⟩
  · calc x + y * w < w + y * w := by omega
      _ = (y + 1) * w := by ring
      _ ≤ b * w := Nat.mul_le_mul_right _ hyb
      _ ≤ a + b * w := by omega
  · omega

theorem extremum_spec (g : Grid2D) (m : ℚ) (hg : g.valid)
    (hmem : m ∈ g.data) :
    (firstIdx (fun v => v = m) g.data) % g.width < g.width ∧
    (firstIdx (fun v => v = m) g.data) / g.width < g.height ∧
    g.getValue ((firstIdx (fun v => v = m) g.data) % g.width)
      ((firstIdx (fun v => v = m) g.data) / g.width) = m ∧
    ∀ x y, x < g.width → y < g.height →
      (y < (firstIdx (fun v => v = m) g.data) / g.width ∨
        (y = (firstIdx (fun v => v = m) g.data) / g.width ∧
         x < (firstIdx (fun v => v = m) g.data) % g.width)) →
      g.getValue x y ≠ m := by
  have hw := hg.1
  have hlen := hg.2.2
  have hilt : firstIdx (fun v => v = m) g.data < g.data.length :=
    firstIdx_lt_length _ _ ⟨m, hmem, by simp⟩
  refine ⟨Nat.mod_lt _ hw, ?_, ?_, ?_⟩
  · apply (Nat.div_lt_iff_lt_mul hw).mpr
    calc firstIdx (fun v => v = m) g.data < g.data.length := hilt
      _ = g.width * g.height := hlen
      _ = g.height * g.width := Nat.mul_comm _ _
  · unfold Grid2D.getValue Grid2D.index
    rw [Nat.mod_add_div']
    have := getD_firstIdx (fun v => v = m) g.data 0 hilt
    simpa using this
  · intro x y hx hy horder
    have hidx : x + y * g.width
        < firstIdx (fun v => v = m) g.data := by
      have h1 : x + y * g.width
          < (firstIdx (fun v => v = m) g.data) % g.width
            + ((firstIdx (fun v => v = m) g.data) / g.width) * g.width :=
        rowmajor_lt x y _ _ g.width hx horder
      rwa [Nat.mod_add_div'] at h1
    have hxylen : x + y * g.width < g.data.length :=
      Nat.lt_trans hidx hilt
    unfold Grid2D.getValue Grid2D.index
    have := getD_lt_firstIdx (fun v => v = m) g.data (x + y * g.width) 0
      hidx hxylen
    simpa using this

/-- C7: `maxValue()` (resp. `minValue()`) returns the integer (x,y)
coordinate of the first cell in row-major scan order holding the global
maximum (resp. minimum); on the 2×2 grid `[3,1,3,2]` the result is
`(0,0)`, not `(0,1)`. -/
theorem C7_extrema_first_occurrence (g : Grid2D) (hg : g.valid) :
    ∃ mx mn, maxAux g.data = some mx ∧ minAux g.data = some mn ∧
      (∀ v ∈ g.data, v ≤ mx) ∧ (∀ v ∈ g.data, mn ≤ v) ∧
      (g.maxValue.1 < g.width ∧ g.maxValue.2 < g.height ∧
        g.getValue g.maxValue.1 g.maxValue.2 = mx ∧
        ∀ x y, x < g.width → y < g.height →
          (y < g.maxValue.2 ∨ (y = g.maxValue.2 ∧ x < g.maxValue.1)) →
          g.getValue x y ≠ mx) ∧
      (g.minValue.1 < g.width ∧ g.minValue.2 < g.height ∧
        g.getValue g.minValue.1 g.minValue.2 = mn ∧
        ∀ x y, x < g.width → y < g.height →
          (y < g.minValue.2 ∨ (y = g.minValue.2 ∧ x < g.minValue.1)) →
          g.getValue x y ≠ mn) ∧
      (Grid2D.mk 2 2 [3, 1, 3, 2]).maxValue = (0, 0) := by
  have hlen0 : 0 < g.data.length := by
    rw [hg.2.2]; exact Nat.mul_pos hg.1 hg.2.1
  have hne : g.data ≠ [] := List.ne_nil_of_length_pos hlen0
  obtain ⟨mn, hmn⟩ := minAux_isSome g.data hne
  obtain ⟨mx, hmx⟩ := maxAux_isSome g.data hne
  have hmaxval : g.maxValue
      = (firstIdx (fun v => v = mx) g.data % g.width,
         firstIdx (fun v => v = mx) g.data / g.width) := by
    unfold Grid2D.maxValue
    rw [hmx]
    rfl
  have hminval : g.minValue
      = (firstIdx (fun v => v = mn) g.data % g.width,
         firstIdx (fun v => v = mn) g.data / g.width) := by
    unfold Grid2D.minValue
    rw [hmn]
    rfl
  have hspecmax := extremum_spec g mx hg (maxAux_mem _ _ hmx)
  have hspecmin := extremum_spec g mn hg (minAux_mem _ _ hmn)
  refine ⟨mx, mn, hmx, hmn, le_maxAux _ _ hmx, minAux_le _ _ hmn,
    ?_, ?_, ?_⟩
  · rw [hmaxval]
    exact ⟨hspecmax.1, hspecmax.2.1, hspecmax.2.2.1, hspecmax.2.2.2⟩
  · rw [hminval]
    exact ⟨hspecmin.1, hspecmin.2.1, hspecmin.2.2.1, hspecmin.2.2.2⟩
  · have hmax43 : maxAux ([3, 1, 3, 2] : List ℚ) = some 3 := by
      norm_num [maxAux, max_def]
    unfold Grid2D.maxValue
    rw [show (Grid2D.mk 2 2 [3, 1, 3, 2]).data = ([3, 1, 3, 2] : List ℚ)
      from rfl, hmax43]
    norm_num [firstIdx]

/-- Witness for C7: the concrete first-occurrence result through the
theorem at the valid grid `[3,1,3,2]`. -/
theorem C7_extrema_first_occurrence_witness :
    (Grid2D.mk 2 2 [3, 1, 3, 2]).maxValue = (0, 0) := by
  obtain ⟨mx, mn, h⟩ :=
    C7_extrema_first_occurrence (Grid2D.mk 2 2 [3, 1, 3, 2]) (by decide)
  exact h.2.2.2.2.2.2

theorem get_cons_set_perm {α : Type} :
    ∀ (t : List α) (k : Nat) (a : α) (hk : k < t.length),
      List.Perm (t.get ⟨k, hk⟩ :: t.set k a) (a :: t) := by
  intro t
  induction t with
  | nil => intro k a hk; simp at hk
  | cons b t2 ih =>
      intro k a hk
      cases k with
      | zero =>
          simpa using List.Perm.swap a b t2
      | succ m =>
          have hm : m < t2.length := by simpa using hk
          have h1 : List.Perm
              (t2.get ⟨m, hm⟩ :: b :: t2.set m a)
              (b :: t2.get ⟨m, hm⟩ :: t2.set m a) :=
            List.Perm.swap _ _ _
          have h2 : List.Perm (b :: t2.get ⟨m, hm⟩ :: t2.set m a)
              (b :: a :: t2) := (ih m a hm).cons b
          have h3 : List.Perm (b :: a :: t2) (a :: b :: t2) :=
            List.Perm.swap _ _ _
          simpa using (h1.trans h2).trans h3

theorem set_set_swap_perm {α : Type} :
    ∀ (l : List α) (i j : Nat) (hi : i < l.length) (hj : j < l.length),
      List.Perm ((l.set i (l.get ⟨j, hj⟩)).set j (l.get ⟨i, hi⟩)) l := by
  intro l
  induction l with
  | nil => intro i j hi _; simp at hi
  | cons a t ih =>
      intro i j hi hj
      cases i with
      | zero =>
          cases j with
          | zero => simp
          | succ m =>
              have hm : m < t.length := by simpa using hj
              simpa using get_cons_set_perm t m a hm
      | succ n =>
          cases j with
          | zero =>
              have hn : n < t.length := by simpa using hi
              simpa using get_cons_set_perm t n a hn
          | succ m =>
              have hn : n < t.length := by simpa using hi
              have hm : m < t.length := by simpa using hj
              simpa using (ih n m hn hm).cons a

theorem swapIdx_perm {α : Type} (a : List α) (i j : Nat) :
    List.Perm (swapIdx a i j) a := by
  unfold swapIdx
  cases hi : a.get? i with
  | none => exact List.Perm.refl _
  | some u =>
      cases hj : a.get? j with
      | none => exact List.Perm.refl _
      | some v =>
          obtain ⟨hilt, hu⟩ := List.get?_eq_some.mp hi
          obtain ⟨hjlt, hv⟩ := List.get?_eq_some.mp hj
          rw [← hu, ← hv]
          exact set_set_swap_perm a i j hilt hjlt

theorem foldl_swapIdx_perm {α : Type} (r : Nat → Nat) :
    ∀ (idxs : List Nat) (acc : List α),
      List.Perm (idxs.foldl (fun acc i => swapIdx acc i (r i)) acc) acc := by
  intro idxs
  induction idxs with
  | nil => intro acc; exact List.Perm.refl _
  | cons i t ih =>
      intro acc
      simp only [List.foldl_cons]
      exact (ih (swapIdx acc i (r i))).trans (swapIdx_perm acc i (r i))

/-- C10: `Random::shuffle` rearranges the vector in place by element
swaps (`a[i] ↔ a[r]`, `r = rand<size_t>(0,i+1) ≤ i`), so the result is a
permutation of the input: same size, same multiset of elements. -/
theorem C10_shuffle_perm {α : Type} (r : Nat → Nat) (a : List α)
    (hr : ∀ i, i < a.length → r i ≤ i) :
    List.Perm (shuffle r a) a ∧ (shuffle r a).length = a.length := by
  have hp : List.Perm (shuffle r a) a :=
    foldl_swapIdx_perm r (List.range a.length) a
  exact ⟨hp, hp.length_eq⟩

/-- Witness for C10: shuffling `[1,2,3]` with the draw sequence that
always picks index 0 yields a permutation of `[1,2,3]`. -/
theorem C10_shuffle_perm_witness :
    List.Perm (shuffle (fun _ => 0) ([1, 2, 3] : List Nat)) [1, 2, 3] ∧
    (shuffle (fun _ => 0) ([1, 2, 3] : List Nat)).length = 3 := by
  have h := C10_shuffle_perm (fun _ => 0) ([1, 2, 3] : List Nat)
    (fun i _ => Nat.zero_le i)
  exact ⟨h.1, h.2⟩

theorem sqlength_nonneg (a : Vec3t) : 0 ≤ a.sqlength := by
  unfold Vec3t.sqlength
  exact add_nonneg (add_nonneg (mul_self_nonneg _) (mul_self_nonneg _))
    (mul_self_nonneg _)

theorem length_eq_zero_iff (a : Vec3t) :
    a.length = 0 ↔ a = ⟨0, 0, 0⟩ := by
  unfold Vec3t.length
  rw [Real.sqrt_eq_zero (sqlength_nonneg a)]
  unfold Vec3t.sqlength
  constructor
  · intro h
    have hx : a.x = 0 := by
      nlinarith [mul_self_nonneg a.x, mul_self_nonneg a.y,
        mul_self_nonneg a.z]
    have hy : a.y = 0 := by
      nlinarith [mul_self_nonneg a.x, mul_self_nonneg a.y,
        mul_self_nonneg a.z]
    have hz : a.z = 0 := by
      nlinarith [mul_self_nonneg a.x, mul_self_nonneg a.y,
        mul_self_nonneg a.z]
    cases a
    simp only [Vec3t.mk.injEq]
    exact ⟨hx, hy, hz⟩
  · intro h
    rw [h]
    norm_num

theorem length_mul_self (a : Vec3t) :
    a.length * a.length = a.x * a.x + a.y * a.y + a.z * a.z := by
  unfold Vec3t.length
  rw [Real.mul_self_sqrt (sqlength_nonneg a)]
  rfl

theorem length_norm_one (a : Vec3t) (h : a.length ≠ 0) :
    Vec3t.length ⟨a.x / a.length, a.y / a.length, a.z / a.length⟩ = 1 := by
  have hs := length_mul_self a
  have hexp : Vec3t.sqlength
      ⟨a.x / a.length, a.y / a.length, a.z / a.length⟩ = 1 := by
    unfold Vec3t.sqlength
    dsimp only
    field_simp
    linarith [hs]
  show Real.sqrt (Vec3t.sqlength
    ⟨a.x / a.length, a.y / a.length, a.z / a.length⟩) = 1
  rw [hexp, Real.sqrt_one]

/-- C9: `Vec3t::normalize` is total — on nonzero length it returns the
componentwise division by the length (a unit vector), on the zero vector
it returns `(0,0,0)`, and the dividing branch is unreachable at length
zero since zero length happens exactly at the zero vector. -/
theorem C9_vec3_normalize_total (a : Vec3t) :
    (a.length = 0 → a.normalize = ⟨0, 0, 0⟩ ∧ a = ⟨0, 0, 0⟩) ∧
    (a.length ≠ 0 →
      a.normalize = ⟨a.x / a.length, a.y / a.length, a.z / a.length⟩ ∧
      (a.normalize).length = 1) ∧
    (a.length = 0 ↔ a = ⟨0, 0, 0⟩) := by
  refine ⟨?_, ?_, length_eq_zero_iff a⟩
  · intro h
    refine ⟨?_, (length_eq_zero_iff a).mp h⟩
    unfold Vec3t.normalize
    rw [if_pos h]
  · intro h
    have hnorm : a.normalize
        = ⟨a.x / a.length, a.y / a.length, a.z / a.length⟩ := by
      unfold Vec3t.normalize Vec3t.divScalar
      rw [if_neg h]
    refine ⟨hnorm, ?_⟩
    rw [hnorm]
    exact length_norm_one a h

/-- Witness for C9: at `(1,0,0)` the length is nonzero and normalization
returns a unit vector. -/
theorem C9_vec3_normalize_total_witness :
    Vec3t.length ⟨1, 0, 0⟩ ≠ 0 ∧
    (Vec3t.normalize ⟨0, 0, 0⟩ = ⟨0, 0, 0⟩) ∧
    ((Vec3t.normalize ⟨1, 0, 0⟩).length = 1) := by
  have hl : Vec3t.length ⟨1, 0, 0⟩ = 1 := by
    unfold Vec3t.length Vec3t.sqlength
    dsimp only
    rw [show (1 : ℝ) * 1 + 0 * 0 + 0 * 0 = 1 by norm_num, Real.sqrt_one]
  have hl0 : Vec3t.length ⟨0, 0, 0⟩ = 0 := by
    unfold Vec3t.length Vec3t.sqlength
    dsimp only
    rw [show (0 : ℝ) * 0 + 0 * 0 + 0 * 0 = 0 by norm_num, Real.sqrt_zero]
  have hne : Vec3t.length ⟨1, 0, 0⟩ ≠ 0 := by rw [hl]; norm_num
  exact ⟨hne,
    ((C9_vec3_normalize_total ⟨0, 0, 0⟩).1 hl0).1,
    ((C9_vec3_normalize_total ⟨1, 0, 0⟩).2.1 hne).2⟩

theorem decode_mod (x y w : Nat) (hx : x < w) : (x + y * w) % w = x := by
  rw [Nat.add_mul_mod_self_right, Nat.mod_eq_of_lt hx]

theorem decode_div (x y w : Nat) (hx : x < w) (hw : 0 < w) :
    (x + y * w) / w = y := by
  rw [Nat.add_mul_div_right _ _ hw, Nat.div_eq_of_lt hx]
  omega

theorem getD_map_range {β : Type} (f : Nat → β) (n i : Nat) (d : β)
    (h : i < n) : ((List.range n).map f).getD i d = f i := by
  have h' : i < ((List.range n).map f).length := by simpa using h
  rw [List.getD_eq_getElem?_getD, List.getElem?_eq_getElem h',
    List.getElem_map]
  simp [List.getElem_range]

theorem index_bound (x y w h : Nat) (hx : x < w) (hy : y < h) :
    x + y * w < w * h := by
  calc x + y * w < w + y * w := by omega
    _ = (y + 1) * w := by ring
    _ ≤ h * w := Nat.mul_le_mul_right _ hy
    _ = w * h := Nat.mul_comm _ _

theorem mem_allCells (g : Grid2D) (hw : 0 < g.width) (c : Nat × Nat) :
    c ∈ g.allCells ↔ c.1 < g.width ∧ c.2 < g.height := by
  unfold Grid2D.allCells
  rw [List.mem_map]
  constructor
  · rintro ⟨i, hi, rfl⟩
    have hilt : i < g.width * g.height := List.mem_range.mp hi
    refine ⟨Nat.mod_lt _ hw, ?_⟩
    exact (Nat.div_lt_iff_lt_mul hw).mpr
      (by rw [Nat.mul_comm g.width g.height] at hilt; exact hilt)
  · rintro ⟨h1, h2⟩
    refine ⟨c.1 + c.2 * g.width, ?_, ?_⟩
    · exact List.mem_range.mpr (index_bound _ _ _ _ h1 h2)
    · rw [decode_mod _ _ _ h1, decode_div _ _ _ h1 hw]

theorem mem_oppCells (g : Grid2D) (t : ℚ) (x y : Nat) (hw : 0 < g.width)
    (c : Nat × Nat) :
    c ∈ g.oppCells t x y ↔
      c.1 < g.width ∧ c.2 < g.height ∧
        g.insideB t c.1 c.2 ≠ g.insideB t x y := by
  unfold Grid2D.oppCells
  rw [List.mem_filter, mem_allCells g hw c, bne_iff_ne]
  tauto

theorem sqDistZ_nonneg (x y : Nat) (c : Nat × Nat) :
    0 ≤ Grid2D.sqDistZ x y c := by
  unfold Grid2D.sqDistZ
  have h1 : 0 ≤ ((x : ℤ) - c.1) ^ 2 := sq_nonneg _
  have h2 : 0 ≤ ((y : ℤ) - c.2) ^ 2 := sq_nonneg _
  omega

theorem sqDistZ_pos (x y : Nat) (c : Nat × Nat) (hne : c ≠ (x, y)) :
    0 < Grid2D.sqDistZ x y c := by
  unfold Grid2D.sqDistZ
  have hor : ((x : ℤ) - c.1) ≠ 0 ∨ ((y : ℤ) - c.2) ≠ 0 := by
    by_contra hcon
    push_neg at hcon
    apply hne
    have e1 : c.1 = x := by omega
    have e2 : c.2 = y := by omega
    cases c
    simp only [Prod.mk.injEq]
    exact ⟨e1, e2⟩
  have h1 : 0 ≤ ((x : ℤ) - c.1) ^ 2 := sq_nonneg _
  have h2 : 0 ≤ ((y : ℤ) - c.2) ^ 2 := sq_nonneg _
  rcases hor with h | h
  · have : ((x : ℤ) - c.1) ^ 2 ≠ 0 := pow_ne_zero _ h
    omega
  · have : ((y : ℤ) - c.2) ^ 2 ≠ 0 := pow_ne_zero _ h
    omega

theorem toSignedDistance_getValue (g : Grid2D) (t : ℚ) (x y : Nat)
    (hx : x < g.width) (hy : y < g.height) :
    (g.toSignedDistance t).getValue x y =
      match g.minSqDist t x y with
      | some d =>
          (if g.insideB t x y then 1 else -1) * Real.sqrt ((d : ℤ) : ℝ)
      | none => 0 := by
  unfold Grid2D.toSignedDistance RGrid.getValue
  have hi : x + y * g.width < g.width * g.height :=
    index_bound _ _ _ _ hx hy
  rw [getD_map_range _ _ _ _ hi]
  rw [decode_mod _ _ _ hx, decode_div _ _ _ hx (by omega)]

/-- C4: `toSignedDistance(threshold)` returns a grid of the same
dimensions in which every cell with a nonempty opposite-classification
set holds the signed Euclidean distance (in grid-cell units) to the
nearest opposite cell: the squared distance to some opposite cell that
minimizes the squared distance over all opposite cells, under a square
root, positive at inside cells (`value ≥ threshold`) and negative at
outside cells. -/
theorem C4_toSignedDistance_spec (g : Grid2D) (t : ℚ) (hg : g.valid) :
    (g.toSignedDistance t).width = g.width ∧
    (g.toSignedDistance t).height = g.height ∧
    (g.toSignedDistance t).data.length = g.width * g.height ∧
    ∀ x y, x < g.width → y < g.height →
      (∀ c, c ∈ g.oppCells t x y ↔
        (c.1 < g.width ∧ c.2 < g.height ∧
          g.insideB t c.1 c.2 ≠ g.insideB t x y)) ∧
      (g.oppCells t x y ≠ [] →
        ∃ c0 ∈ g.oppCells t x y,
          (∀ c ∈ g.oppCells t x y,
            Grid2D.sqDistZ x y c0 ≤ Grid2D.sqDistZ x y c) ∧
          (g.toSignedDistance t).getValue x y
            = (if g.insideB t x y then 1 else -1)
                * Real.sqrt ((Grid2D.sqDistZ x y c0 : ℤ) : ℝ) ∧
          (g.insideB t x y = true →
            0 < (g.toSignedDistance t).getValue x y) ∧
          (g.insideB t x y = false →
            (g.toSignedDistance t).getValue x y < 0)) := by
  have hw := hg.1
  refine ⟨rfl, rfl, by simp [Grid2D.toSignedDistance], ?_⟩
  intro x y hx hy
  refine ⟨fun c => mem_oppCells g t x y hw c, ?_⟩
  intro hne
  have hmapne : (g.oppCells t x y).map (Grid2D.sqDistZ x y) ≠ [] := by
    simpa using hne
  obtain ⟨d0, hd0⟩ := minAux_isSome _ hmapne
  obtain ⟨c0, hc0opp, hc0d⟩ := List.mem_map.mp (minAux_mem _ _ hd0)
  have hlb : ∀ c ∈ g.oppCells t x y, d0 ≤ Grid2D.sqDistZ x y c := by
    intro c hc
    exact minAux_le _ _ hd0 _ (List.mem_map_of_mem _ hc)
  have hmin : g.minSqDist t x y = some d0 := hd0
  have hval := toSignedDistance_getValue g t x y hx hy
  rw [hmin] at hval
  dsimp only at hval
  have hd0pos : 0 < d0 := by
    rw [← hc0d]
    apply sqDistZ_pos
    intro hceq
    have hchar := (mem_oppCells g t x y hw c0).mp hc0opp
    rw [hceq] at hchar
    exact hchar.2.2 rfl
  have hsq : (0 : ℝ) < Real.sqrt ((d0 : ℤ) : ℝ) := by
    apply Real.sqrt_pos.mpr
    exact_mod_cast hd0pos
  refine ⟨c0, hc0opp, ?_, ?_, ?_, ?_⟩
  · intro c hc
    rw [hc0d]
    exact hlb c hc
  · rw [hval, hc0d]
  · intro hin
    rw [hval, hin]
    simpa using hsq
  · intro hout
    rw [hval, hout]
    simpa using hsq

/-- Witness for C4: the signed-distance field of the 2×1 grid `[0,1]`
at threshold `1/2` keeps the grid's dimensions. -/
theorem C4_toSignedDistance_spec_witness :
    ((Grid2D.mk 2 1 [0, 1]).toSignedDistance (1/2)).width = 2 ∧
    ((Grid2D.mk 2 1 [0, 1]).toSignedDistance (1/2)).height = 1 ∧
    ((Grid2D.mk 2 1 [0, 1]).toSignedDistance (1/2)).data.length = 2 * 1 := by
  have h := C4_toSignedDistance_spec (Grid2D.mk 2 1 [0, 1]) (1/2) (by decide)
  exact ⟨h.1, h.2.1, h.2.2.1⟩

/-- C1: for every valid grid `g` (positive dimensions,
`data.size() == width*height`), saving `g` to a stream and constructing a
new `Grid2D` from that stream yields a grid with the same width, the same
height, and element-wise equal data. -/
theorem C1_save_load_roundtrip (g : Grid2D) (hg : g.valid) :
    ∃ g' rest, Grid2D.load g.save = some (g', rest) ∧
      g'.width = g.width ∧ g'.height = g.height ∧ g'.data = g.data ∧
      ∀ x y, g'.getValue x y = g.getValue x y := by
  refine ⟨g, [], ?_, rfl, rfl, rfl, fun _ _ => rfl⟩
  have := Grid2D.load_save g [] hg.2.2
  simpa using this

/-- Witness for C1: the 3×2 grid `[0.1,0.2,0.3,0.4,0.5,0.6]` of spec §8
round-trips through `save`/`load`. -/
theorem C1_save_load_roundtrip_witness :
    (Grid2D.mk 3 2 [1/10, 2/10, 3/10, 4/10, 5/10, 6/10]).valid ∧
    ∃ g' rest,
      Grid2D.load (Grid2D.mk 3 2 [1/10, 2/10, 3/10, 4/10, 5/10, 6/10]).save
        = some (g', rest) ∧
      g'.width = (Grid2D.mk 3 2 [1/10, 2/10, 3/10, 4/10, 5/10, 6/10]).width ∧
      g'.height = (Grid2D.mk 3 2 [1/10, 2/10, 3/10, 4/10, 5/10, 6/10]).height ∧
      g'.data = (Grid2D.mk 3 2 [1/10, 2/10, 3/10, 4/10, 5/10, 6/10]).data ∧
      ∀ x y, g'.getValue x y
        = (Grid2D.mk 3 2 [1/10, 2/10, 3/10, 4/10, 5/10, 6/10]).getValue x y :=
  ⟨by decide, C1_save_load_roundtrip _ (by decide)⟩

/-- C2: the raw-data constructor fails with a size-validation error iff
`data.size() ≠ width*height`; on success the grid satisfies the size
invariant and `getValue x y` returns `data[x + y*width]` for in-range
coordinates. -/
theorem C2_mkRaw_spec (w h : Nat) (d : List ℚ) :
    ((∃ e, Grid2D.mkRaw w h d = .error e) ↔ d.length ≠ w * h) ∧
    (d.length = w * h →
      Grid2D.mkRaw w h d = .ok ⟨w, h, d⟩ ∧
      (Grid2D.mk w h d).data.length
        = (Grid2D.mk w h d).width * (Grid2D.mk w h d).height ∧
      ∀ x y, x < w → y < h →
        ∃ hlt : x + y * w < d.length,
          (Grid2D.mk w h d).getValue x y = d.get ⟨x + y * w, hlt⟩) := by
  constructor
  · constructor
    · rintro ⟨e, he⟩ hlen
      simp [Grid2D.mkRaw, hlen] at he
    · intro hne
      exact ⟨"size mismatch", by simp [Grid2D.mkRaw, hne]⟩
  · intro hlen
    refine ⟨by simp [Grid2D.mkRaw, hlen], hlen, ?_⟩
    intro x y hx hy
    have hlt : x + y * w < d.length :=
      Grid2D.index_lt_length ⟨w, h, d⟩ x y hx hy hlen
    exact ⟨hlt, Grid2D.getD_eq_get d _ hlt⟩

/-- Witness for C2: at `w=2, h=1` the constructor rejects a 3-element
vector and accepts a 2-element one, which then reads back elementwise. -/
theorem C2_mkRaw_spec_witness :
    (∃ e, Grid2D.mkRaw 2 1 [5, 7, 9] = .error e) ∧
    (Grid2D.mkRaw 2 1 [5, 7] = .ok ⟨2, 1, [5, 7]⟩ ∧
      (Grid2D.mk 2 1 [5, 7]).data.length
        = (Grid2D.mk 2 1 [5, 7]).width * (Grid2D.mk 2 1 [5, 7]).height ∧
      ∀ x y, x < 2 → y < 1 →
        ∃ hlt : x + y * 2 < ([5, 7] : List ℚ).length,
          (Grid2D.mk 2 1 [5, 7]).getValue x y
            = ([5, 7] : List ℚ).get ⟨x + y * 2, hlt⟩) :=
  ⟨(C2_mkRaw_spec 2 1 [5, 7, 9]).1.mpr (by decide),
   (C2_mkRaw_spec 2 1 [5, 7]).2 (by decide)⟩

end AIS
